import Mathlib

/-!
Verification of the h2loadGo request-dispatch and measurement engine.

The definitions below are a shallow embedding of the Go sources under
`src/h2load/`: `h2load.go` (configuration and validation), `stats.go`
(`RequestStats`), `h2client.go` (the per-connection statistics collector,
`DoRequest`, the `DoRequestsFactory` pump loop, the RPS refill goroutines and
the two log-line formatters) and `h2loadClient.go` (pool construction and
cross-connection aggregation).  Go `int`/`int64`/`time.Duration` values are
modelled as `Int`; Go integer division (which truncates toward zero) is
`Int.tdiv`.  The concurrent pump loop and the rate-limiter refill goroutine are
modelled as labelled transition systems whose steps correspond to the atomic
actions of the Go code, with the nondeterminism of the scheduler and of Go's
`select` statement reflected as nondeterminism of the transition relation.
-/

/-- Embeds the `RpsMode` enumeration (h2load.go:8-13). -/
inductive RpsMode where
  | burst
  | even
  deriving DecidableEq, Repr

/-- Embeds `H2loadConf` (h2load.go:20-31).  All Go `int` fields are `Int`. -/
structure H2loadConf where
  Protocol : String
  ServerAddress : String
  Requests : Int
  Rate : Int
  RatePeriod : Int
  Rps : Int
  RpsMode : RpsMode
  ConcurrentStreams : Int
  Clients : Int
  URL : String
  deriving DecidableEq, Repr

/-- Embeds `H2loadConf.Validate` (h2load.go:33-56): `some msg` models a non-nil
returned error, `none` models a nil error.  The checks and their order follow
the source exactly; note that each check rejects only strictly negative
values, so zero passes every numeric check. -/
def H2loadConf.Validate (h : H2loadConf) : Option String :=
  if h.URL = "" then some ("URL is required")
  else if h.Requests < 0 then some ("requests must be greater than 0")
  else if h.Rate < 0 then some ("rate must be greater than 0")
  else if h.RatePeriod < 0 then some ("rate period must be greater than 0")
  else if h.Rps < 0 then some ("rps must be greater than 0")
  else if h.ConcurrentStreams < 0 then some ("concurrent streams must be greater than 0")
  else if h.Clients < 0 then some ("clients must be greater than 0")
  else none

/-- Embeds `LogEntry` (h2load.go:58-62): the record sent over `statsChan` for
each completed or failed request attempt. -/
structure LogEntry where
  Status : Int
  Latency : Int
  Timestamp : String
  deriving DecidableEq, Repr

/-- Embeds `RequestStats` (stats.go:8-16).  Latencies and durations are
`time.Duration`, i.e. `int64` nanoseconds, modelled as `Int`. -/
structure RequestStats where
  TotalRequests : Int
  SuccessRequests : Int
  FailedRequests : Int
  MinLatency : Int
  MaxLatency : Int
  TotalLatency : Int
  Duration : Int
  deriving DecidableEq, Repr

/-- The zero value of `RequestStats`, as produced by the Go composite literal
`RequestStats{}` (h2client.go:56). -/
def RequestStats.zero : RequestStats :=
  { TotalRequests := 0, SuccessRequests := 0, FailedRequests := 0,
    MinLatency := 0, MaxLatency := 0, TotalLatency := 0, Duration := 0 }

/-- Embeds one iteration of the `statsCollector` loop (h2client.go:71-93):
the update applied to the running `RequestStats` for one `LogEntry` received
from `statsChan`.  The order of the updates follows the source: the total is
incremented first, then the outcome is classified (2xx-3xx counts as success,
everything else as failure), then min/max are updated (the first entry, i.e.
`TotalRequests == 1` after the increment, seeds both), then the latency sum. -/
def statsCollectorStep (stats : RequestStats) (entry : LogEntry) : RequestStats :=
  let stats := { stats with TotalRequests := stats.TotalRequests + 1 }
  let stats :=
    if 200 ≤ entry.Status ∧ entry.Status < 400 then
      { stats with SuccessRequests := stats.SuccessRequests + 1 }
    else
      { stats with FailedRequests := stats.FailedRequests + 1 }
  let stats :=
    if stats.TotalRequests = 1 then
      { stats with MinLatency := entry.Latency, MaxLatency := entry.Latency }
    else
      let stats :=
        if entry.Latency < stats.MinLatency then
          { stats with MinLatency := entry.Latency }
        else stats
      if entry.Latency > stats.MaxLatency then
        { stats with MaxLatency := entry.Latency }
      else stats
  { stats with TotalLatency := stats.TotalLatency + entry.Latency }

/-- The statistics a connection's collector has accumulated after consuming the
given sequence of entries from its queue, starting from the zero value
(h2client.go:56 and 71-93). -/
def statsCollector (entries : List LogEntry) : RequestStats :=
  entries.foldl statsCollectorStep RequestStats.zero

/-- Embeds the per-connection state of `H2Client` that the aggregation and
accounting claims depend on: its configuration, its accumulated statistics and
its sent-request counter (h2client.go:22-38). -/
structure H2Client where
  Conf : H2loadConf
  stats : RequestStats
  sentRequests : Int
  deriving DecidableEq, Repr

/-- Embeds the `H2Client` initial state built by `NewH2Client`
(h2client.go:40-69): zero statistics and a zero sent-request counter. -/
def NewH2Client (conf : H2loadConf) : H2Client :=
  { Conf := conf, stats := RequestStats.zero, sentRequests := 0 }

/-- Embeds `H2loadClient` (h2loadClient.go:10-13): the pool of connections. -/
structure H2loadClient where
  Clients : List H2Client
  ClientsConf : H2loadConf
  deriving DecidableEq, Repr

/-- Embeds `NewH2loadClient` (h2loadClient.go:52-62): validate the
configuration and, on success, create `conf.Clients` fresh connections
(the Go loop `for i := 0; i < conf.Clients; i++`). -/
def NewH2loadClient (conf : H2loadConf) : Except String H2loadClient :=
  match conf.Validate with
  | some e => .error e
  | none =>
      .ok { Clients := List.replicate conf.Clients.toNat (NewH2Client conf),
            ClientsConf := conf }

/-- Outcome of pool construction, distinguishing a returned validation error
(h2loadClient.go:53-55) from a Go panic raised inside `NewH2Client`
(h2client.go:42-45). -/
inductive ConstructOutcome where
  | ok (pool : H2loadClient)
  | validationError (msg : String)
  | panicked (msg : String)
  deriving DecidableEq, Repr

/-- Embeds `NewH2loadClient` (h2loadClient.go:52-62) together with the panic
check inside `NewH2Client` (h2client.go:42-45): `urlpkg.Parse` is Go
standard-library code outside this repository, so its verdict on `conf.URL`
enters as the `parseErr` argument — `some msg` when Go's `url.Parse(conf.URL)`
returns an error (for example `url.Parse(":")` fails with
`parse ":": missing protocol scheme`), `none` when it succeeds.  Validation
runs first; on success the construction loop calls `NewH2Client` once per
client, and the first call panics when the URL does not parse — with
`Clients = 0` the loop body never runs, so no parse check happens and no
panic can occur. -/
def NewH2loadClientChecked (parseErr : Option String) (conf : H2loadConf) :
    ConstructOutcome :=
  match conf.Validate with
  | some e => .validationError e
  | none =>
      if conf.Clients.toNat = 0 then .ok { Clients := [], ClientsConf := conf }
      else
        match parseErr with
        | some e => .panicked ("invalid URL in conf: " ++ e)
        | none =>
            .ok { Clients := List.replicate conf.Clients.toNat (NewH2Client conf),
                  ClientsConf := conf }

/-- Embeds the loop body of `GetTotalStats` (h2loadClient.go:149-168): merge one
connection's statistics into the running total.  Counters and latency sums are
added; the minimum latency is replaced when the total is still zero or the
connection has a strictly positive, strictly smaller minimum; the maximum
latency and the duration are replaced when strictly larger. -/
def mergeStats (totalStats stats : RequestStats) : RequestStats :=
  let totalStats :=
    { totalStats with
      TotalRequests := totalStats.TotalRequests + stats.TotalRequests
      SuccessRequests := totalStats.SuccessRequests + stats.SuccessRequests
      FailedRequests := totalStats.FailedRequests + stats.FailedRequests
      TotalLatency := totalStats.TotalLatency + stats.TotalLatency }
  let totalStats :=
    if totalStats.MinLatency = 0 ∨ (0 < stats.MinLatency ∧ stats.MinLatency < totalStats.MinLatency) then
      { totalStats with MinLatency := stats.MinLatency }
    else totalStats
  let totalStats :=
    if stats.MaxLatency > totalStats.MaxLatency then
      { totalStats with MaxLatency := stats.MaxLatency }
    else totalStats
  if stats.Duration > totalStats.Duration then
    { totalStats with Duration := stats.Duration }
  else totalStats

/-- Embeds `GetTotalStats` (h2loadClient.go:146-171): fold `mergeStats` over the
connections' statistics starting from the zero value. -/
def H2loadClient.GetTotalStats (h : H2loadClient) : RequestStats :=
  (h.Clients.map (fun c => c.stats)).foldl mergeStats RequestStats.zero

/-- Embeds `GetSentRequests` on the pool (h2loadClient.go:137-143): the sum of
the per-connection sent-request counters. -/
def H2loadClient.GetSentRequests (h : H2loadClient) : Int :=
  (h.Clients.map (fun c => c.sentRequests)).sum

/-- Embeds `GetAvgClientStats` (h2loadClient.go:174-188).  Go divides the
`float64` images of the three counters by `float64(clientCount)` and truncates
back to `int64`, and divides the latency sum by `clientCount` with `int64`
division; both are modelled with `Int.tdiv`, which agrees with the Go result
whenever the magnitudes stay below 2^53.  When the pool has zero connections
the `int64` division for `TotalLatency` is a division by zero, which panics at
run time in Go (and the float divisions produce NaN whose integer conversion
the Go specification leaves undefined); the `Except.error` branch models that
panic. -/
def H2loadClient.GetAvgClientStats (h : H2loadClient) : Except String RequestStats :=
  let totalStats := h.GetTotalStats
  let clientCount : Int := (h.Clients.length : Int)
  if clientCount = 0 then
    .error ("runtime error: integer divide by zero")
  else
    .ok { TotalRequests := Int.tdiv totalStats.TotalRequests clientCount,
          SuccessRequests := Int.tdiv totalStats.SuccessRequests clientCount,
          FailedRequests := Int.tdiv totalStats.FailedRequests clientCount,
          MinLatency := totalStats.MinLatency,
          MaxLatency := totalStats.MaxLatency,
          TotalLatency := Int.tdiv totalStats.TotalLatency clientCount,
          Duration := totalStats.Duration }

/-- The spec's description of the merged minimum latency: the minimum of the
per-connection minima ignoring zero (the "no outcome yet" value), or zero when
every minimum is zero. -/
def specMinIgnoringZero (l : List Int) : Int :=
  match l.filter (fun x => x ≠ 0) with
  | [] => 0
  | y :: ys => ys.foldl min y

/-- Abstracts the transport call `h.client.Do(req)` inside `DoRequest`
(h2client.go:211): either a response with a status code, or a transport-level
error; distinct errors carry distinct identifiers so that "first error wins"
can be stated. -/
inductive Attempt where
  | success (status : Int)
  | failure (errId : Nat)
  deriving DecidableEq, Repr

/-- Embeds `DoRequest` (h2client.go:209-224): the `LogEntry` it records via
`logResult` and the error (if any) it returns.  A transport failure is recorded
with the sentinel status 0 and returns a non-nil error; a completed response is
recorded with its status code and returns nil. -/
def DoRequest (a : Attempt) (latency : Int) : LogEntry × Option Nat :=
  match a with
  | .failure e => ({ Status := 0, Latency := latency, Timestamp := "" }, some e)
  | .success st => ({ Status := st, Latency := latency, Timestamp := "" }, none)

/-- The state of one connection's pump (`DoRequestsFactory`, h2client.go:253-361)
together with the rate-limiter reservoir it draws from:
`sent` is the `sentRequests` counter, `inflight` the occupancy of the `streams`
channel (a slot is taken at launch and released only by the deferred receive at
line 341, which runs after the whole goroutine body including the error
branch), `tokens` the occupancy of the `rpsTokens` channel, `cancelled` whether
`h.ctx` has been cancelled, `exited` whether the labelled loop has been left,
`outcomes` the entries recorded by completed attempts in completion order,
`completions` the per-attempt returned errors in the same order, and `firstErr`
the content of the `firstErr` atomic value.  The error branch at lines 346-348
performs two separate atomic operations — `firstErr.Load()` and
`firstErr.Store(err)` — with no mutual exclusion between them, so a goroutine
sits in intermediate stages that the last three fields track: `pendingLoad`
holds the errors of failed attempts whose goroutine has not yet executed the
`Load`, `pendingStore` those that loaded nil and have not yet executed the
`Store`, and `toRelease` counts goroutines that are past the error branch
(successes skip it entirely, since `err != nil` short-circuits) and only have
their deferred slot release left to run. -/
structure PumpState where
  sent : Int
  inflight : Nat
  tokens : Nat
  cancelled : Bool
  exited : Bool
  outcomes : List LogEntry
  completions : List (Option Nat)
  firstErr : Option Nat
  pendingLoad : List Nat
  pendingStore : List Nat
  toRelease : Nat
  deriving DecidableEq, Repr

/-- The pump state when `DoRequestsFactory` starts (h2client.go:253-310):
nothing sent, nothing in flight, empty reservoir, no error. -/
def PumpState.init : PumpState :=
  { sent := 0, inflight := 0, tokens := 0, cancelled := false, exited := false,
    outcomes := [], completions := [], firstErr := none,
    pendingLoad := [], pendingStore := [], toRelease := 0 }

/-- One atomic action of `DoRequestsFactory` (h2client.go:253-361) or of its
environment.  The constructors correspond to the source as follows:
* `cancel`: `h.ctx` is cancelled by `Stop()` or the owning pool;
* `exitCancelled`: one of the `case <-h.ctx.Done(): break loop` branches fires
  (lines 314, 326, 334);
* `exitCeiling`: the ceiling check at line 319 fires
  (`Requests > 0 && sentRequests >= Requests`);
* `refill`: a refill goroutine places a token into `rpsTokens` (lines 283, 300);
  the channel capacity is `Rps`, and a refill finding it full is skipped;
* `launch`: one loop iteration passes the ceiling check, receives a token when
  `Rps > 0` (line 328), wins `case streams <- struct{}{}` (line 336, possible
  exactly when the channel is below its capacity, since launched tasks are the
  only receivers), increments `sentRequests` and starts a request goroutine
  (lines 337-349);
* `tokenUsedWithoutLaunch`: the iteration consumes a token at line 328 but then
  hits the `default` branch at line 350 because the `streams` channel is full,
  so the token is lost without a request being launched;
* `complete`: a running request goroutine returns from `DoRequest` (line 345),
  which recorded the outcome for attempt `a` via `logResult`; on a failure the
  error joins `pendingLoad` (the `if err != nil` test at line 346 passed, the
  `firstErr.Load()` has not run yet), on a success the goroutine skips the
  error branch and is ready to release its slot; the guard says some launched
  goroutine is still inside `DoRequest`;
* `errLoadNil` / `errLoadSome`: a goroutine in `pendingLoad` executes
  `firstErr.Load()` (line 346); if it reads nil it proceeds to the store, and
  if it reads a stored error it skips the store and is ready to release —
  nothing prevents several goroutines from all reading nil before any store;
* `errStore`: a goroutine that read nil executes `firstErr.Store(err)`
  (line 347), unconditionally overwriting the atomic value;
* `release`: a goroutine past the error branch runs its deferred
  `<-streams; streamsWg.Done()` (lines 340-343), freeing its slot. -/
inductive PumpStep (c : H2loadConf) : PumpState → PumpState → Prop where
  | cancel (s : PumpState) :
      s.cancelled = false →
      PumpStep c s { s with cancelled := true }
  | exitCancelled (s : PumpState) :
      s.exited = false → s.cancelled = true →
      PumpStep c s { s with exited := true }
  | exitCeiling (s : PumpState) :
      s.exited = false → 0 < c.Requests → c.Requests ≤ s.sent →
      PumpStep c s { s with exited := true }
  | refill (s : PumpState) :
      0 < c.Rps → (s.tokens : Int) < c.Rps →
      PumpStep c s { s with tokens := s.tokens + 1 }
  | launch (s : PumpState) :
      s.exited = false →
      (c.Requests ≤ 0 ∨ s.sent < c.Requests) →
      (c.Rps ≤ 0 ∨ 0 < s.tokens) →
      (s.inflight : Int) < c.ConcurrentStreams →
      PumpStep c s { s with
        sent := s.sent + 1,
        inflight := s.inflight + 1,
        tokens := if 0 < c.Rps then s.tokens - 1 else s.tokens }
  | tokenUsedWithoutLaunch (s : PumpState) :
      s.exited = false → 0 < c.Rps → 0 < s.tokens →
      ¬ (s.inflight : Int) < c.ConcurrentStreams →
      PumpStep c s { s with tokens := s.tokens - 1 }
  | complete (s : PumpState) (a : Attempt) (lat : Int) :
      s.pendingLoad.length + s.pendingStore.length + s.toRelease < s.inflight →
      PumpStep c s { s with
        outcomes := s.outcomes ++ [(DoRequest a lat).1],
        completions := s.completions ++ [(DoRequest a lat).2],
        pendingLoad := s.pendingLoad ++ ((DoRequest a lat).2).toList,
        toRelease := if (DoRequest a lat).2 = none then s.toRelease + 1
                     else s.toRelease }
  | errLoadNil (s : PumpState) (l1 l2 : List Nat) (e : Nat) :
      s.pendingLoad = l1 ++ e :: l2 → s.firstErr = none →
      PumpStep c s { s with pendingLoad := l1 ++ l2,
                            pendingStore := s.pendingStore ++ [e] }
  | errLoadSome (s : PumpState) (l1 l2 : List Nat) (e f : Nat) :
      s.pendingLoad = l1 ++ e :: l2 → s.firstErr = some f →
      PumpStep c s { s with pendingLoad := l1 ++ l2,
                            toRelease := s.toRelease + 1 }
  | errStore (s : PumpState) (l1 l2 : List Nat) (e : Nat) :
      s.pendingStore = l1 ++ e :: l2 →
      PumpStep c s { s with pendingStore := l1 ++ l2,
                            firstErr := some e,
                            toRelease := s.toRelease + 1 }
  | release (s : PumpState) :
      0 < s.toRelease →
      PumpStep c s { s with toRelease := s.toRelease - 1,
                            inflight := s.inflight - 1 }

/-- The pump states reachable from the initial state of `DoRequestsFactory`. -/
inductive PumpReachable (c : H2loadConf) : PumpState → Prop where
  | init : PumpReachable c PumpState.init
  | step {s s' : PumpState} :
      PumpReachable c s → PumpStep c s s' → PumpReachable c s'

/-- The value `DoRequestsFactory` returns once the loop has exited and the
in-flight goroutines have drained (h2client.go:355-360): the content of the
`firstErr` atomic value — the last error stored into it — or nil when no
store ever happened. -/
def pumpResult (s : PumpState) : Option Nat := s.firstErr

/-- The state of one rate-limiter refill goroutine (h2client.go:278-289 for
even mode; the burst-mode goroutine at lines 292-307 has the same shape):
`tokens` is the occupancy of the `rpsTokens` channel, `cancelled` whether
`h.ctx` is done, `tickerStopped` whether the owning pump has returned and run
the deferred `Stop()` of the ticker, and `returned` whether the goroutine has
executed its `return`. -/
structure RefillState where
  tokens : Nat
  cancelled : Bool
  tickerStopped : Bool
  returned : Bool
  deriving DecidableEq, Repr

/-- One atomic action of the refill goroutine or of its environment.  A tick of
the ticker delivers control to the `select` inside the loop body
(h2client.go:280-286): when the context is done and the token channel has
room, *both* the `<-h.ctx.Done()` case and the `rpsTokens <- struct{}{}` case
are ready and Go chooses between them uniformly at random, which
`tickSend`/`tickReturn` model as nondeterminism; the `default` case
(`tickFull`) runs only when neither other case is ready.  Once the ticker has
been stopped, `for range evenTicker.C` never receives again, so no `tick*`
step is enabled. -/
inductive RefillStep (rps : Nat) : RefillState → RefillState → Prop where
  | cancel (s : RefillState) :
      s.cancelled = false →
      RefillStep rps s { s with cancelled := true }
  | stopTicker (s : RefillState) :
      s.tickerStopped = false →
      RefillStep rps s { s with tickerStopped := true }
  | consume (s : RefillState) :
      0 < s.tokens →
      RefillStep rps s { s with tokens := s.tokens - 1 }
  | tickSend (s : RefillState) :
      s.returned = false → s.tickerStopped = false → s.tokens < rps →
      RefillStep rps s { s with tokens := s.tokens + 1 }
  | tickReturn (s : RefillState) :
      s.returned = false → s.tickerStopped = false → s.cancelled = true →
      RefillStep rps s { s with returned := true }
  | tickFull (s : RefillState) :
      s.returned = false → s.tickerStopped = false → s.cancelled = false →
      rps ≤ s.tokens →
      RefillStep rps s s

theorem pump_invariant {c : H2loadConf} {s : PumpState} (h : PumpReachable c s) :
    0 ≤ s.sent ∧
    (0 < c.Requests → s.sent ≤ c.Requests) ∧
    (0 ≤ c.ConcurrentStreams → (s.inflight : Int) ≤ c.ConcurrentStreams) ∧
    (s.exited = true → s.cancelled = false → 0 < c.Requests → c.Requests ≤ s.sent) := by
  induction h with
  | init =>
    refine ⟨by simp [PumpState.init], ?_, ?_, ?_⟩
    · intro h
      simp [PumpState.init]
      omega
    · intro h
      simpa [PumpState.init] using h
    · intro hex
      simp [PumpState.init] at hex
  | @step s s' hr hs ih =>
    obtain ⟨ih1, ih2, ih3, ih4⟩ := ih
    cases hs with
    | cancel h1 =>
      refine ⟨ih1, ih2, ih3, ?_⟩
      intro _ hcf
      have hcf' : (true : Bool) = false := hcf
      simp at hcf'
    | exitCancelled h1 h2 =>
      refine ⟨ih1, ih2, ih3, ?_⟩
      intro _ hcf
      have hcf' : s.cancelled = false := hcf
      rw [h2] at hcf'
      simp at hcf'
    | exitCeiling h1 h2 h3 =>
      exact ⟨ih1, ih2, ih3, fun _ _ _ => h3⟩
    | refill h1 h2 =>
      exact ⟨ih1, ih2, ih3, ih4⟩
    | launch h1 h2 h3 h4 =>
      refine ⟨?_, ?_, ?_, ?_⟩
      · show 0 ≤ s.sent + 1
        omega
      · intro hreq
        show s.sent + 1 ≤ c.Requests
        rcases h2 with h2 | h2
        · omega
        · omega
      · intro hcap
        show ((s.inflight + 1 : Nat) : Int) ≤ c.ConcurrentStreams
        omega
      · intro hex
        have hex' : s.exited = true := hex
        rw [h1] at hex'
        simp at hex'
    | tokenUsedWithoutLaunch h1 h2 h3 h4 =>
      exact ⟨ih1, ih2, ih3, ih4⟩
    | complete a lat h1 =>
      exact ⟨ih1, ih2, ih3, ih4⟩
    | errLoadNil l1 l2 e h1 h2 =>
      exact ⟨ih1, ih2, ih3, ih4⟩
    | errLoadSome l1 l2 e f h1 h2 =>
      exact ⟨ih1, ih2, ih3, ih4⟩
    | errStore l1 l2 e h1 =>
      exact ⟨ih1, ih2, ih3, ih4⟩
    | release h1 =>
      refine ⟨ih1, ih2, ?_, ih4⟩
      intro hcap
      have h2 := ih3 hcap
      show ((s.inflight - 1 : Nat) : Int) ≤ c.ConcurrentStreams
      omega

theorem pump_zeroCap_invariant {c : H2loadConf} (hcap : c.ConcurrentStreams = 0)
    (hreq : 0 < c.Requests) {s : PumpState} (h : PumpReachable c s) :
    s.cancelled = false →
    s.sent = 0 ∧ s.inflight = 0 ∧ s.exited = false ∧
    s.pendingLoad = [] ∧ s.pendingStore = [] ∧ s.toRelease = 0 := by
  induction h with
  | init =>
    intro _
    simp [PumpState.init]
  | @step s s' hr hs ih =>
    cases hs with
    | cancel h1 =>
      intro hcf
      have hcf' : (true : Bool) = false := hcf
      simp at hcf'
    | exitCancelled h1 h2 =>
      intro hcf
      have hcf' : s.cancelled = false := hcf
      rw [h2] at hcf'
      simp at hcf'
    | exitCeiling h1 h2 h3 =>
      intro hcf
      have hcf' : s.cancelled = false := hcf
      obtain ⟨hsent, _, _, _, _, _⟩ := ih hcf'
      rw [hsent] at h3
      omega
    | refill h1 h2 =>
      intro hcf
      have hcf' : s.cancelled = false := hcf
      exact ih hcf'
    | launch h1 h2 h3 h4 =>
      intro hcf
      rw [hcap] at h4
      omega
    | tokenUsedWithoutLaunch h1 h2 h3 h4 =>
      intro hcf
      have hcf' : s.cancelled = false := hcf
      exact ih hcf'
    | complete a lat h1 =>
      intro hcf
      have hcf' : s.cancelled = false := hcf
      obtain ⟨_, hinf, _, _, _, _⟩ := ih hcf'
      rw [hinf] at h1
      omega
    | errLoadNil l1 l2 e h1 h2 =>
      intro hcf
      have hcf' : s.cancelled = false := hcf
      obtain ⟨_, _, _, hpl, _, _⟩ := ih hcf'
      rw [hpl] at h1
      have hlen := congrArg List.length h1
      simp [List.length_append] at hlen
      omega
    | errLoadSome l1 l2 e f h1 h2 =>
      intro hcf
      have hcf' : s.cancelled = false := hcf
      obtain ⟨_, _, _, hpl, _, _⟩ := ih hcf'
      rw [hpl] at h1
      have hlen := congrArg List.length h1
      simp [List.length_append] at hlen
      omega
    | errStore l1 l2 e h1 =>
      intro hcf
      have hcf' : s.cancelled = false := hcf
      obtain ⟨_, _, _, _, hps, _⟩ := ih hcf'
      rw [hps] at h1
      have hlen := congrArg List.length h1
      simp [List.length_append] at hlen
      omega
    | release h1 =>
      intro hcf
      have hcf' : s.cancelled = false := hcf
      obtain ⟨_, _, _, _, _, htr⟩ := ih hcf'
      rw [htr] at h1
      omega

theorem pump_err_invariant {c : H2loadConf} {s : PumpState} (h : PumpReachable c s) :
    (∀ e, e ∈ s.pendingLoad ++ s.pendingStore → some e ∈ s.completions) ∧
    (∀ e, s.firstErr = some e → some e ∈ s.completions) ∧
    (s.firstErr = none →
      ∀ e, some e ∈ s.completions → e ∈ s.pendingLoad ++ s.pendingStore) := by
  induction h with
  | init =>
    refine ⟨?_, ?_, ?_⟩
    · intro e he
      simp [PumpState.init] at he
    · intro e he
      simp [PumpState.init] at he
    · intro _ e he
      simp [PumpState.init] at he
  | @step s s' hr hs ih =>
    obtain ⟨ihA, ihB, ihC⟩ := ih
    cases hs with
    | cancel h1 => exact ⟨ihA, ihB, ihC⟩
    | exitCancelled h1 h2 => exact ⟨ihA, ihB, ihC⟩
    | exitCeiling h1 h2 h3 => exact ⟨ihA, ihB, ihC⟩
    | refill h1 h2 => exact ⟨ihA, ihB, ihC⟩
    | launch h1 h2 h3 h4 => exact ⟨ihA, ihB, ihC⟩
    | tokenUsedWithoutLaunch h1 h2 h3 h4 => exact ⟨ihA, ihB, ihC⟩
    | complete a lat h1 =>
      refine ⟨?_, ?_, ?_⟩
      · show ∀ e, e ∈ (s.pendingLoad ++ ((DoRequest a lat).2).toList) ++ s.pendingStore →
          some e ∈ s.completions ++ [(DoRequest a lat).2]
        intro e he
        rw [List.mem_append, List.mem_append] at he
        rw [List.mem_append]
        rcases he with (he | he) | he
        · exact Or.inl (ihA e (List.mem_append.mpr (Or.inl he)))
        · right
          cases hdr : (DoRequest a lat).2 with
          | none =>
            rw [hdr] at he
            simp at he
          | some x =>
            rw [hdr] at he
            simp at he
            subst he
            simp
        · exact Or.inl (ihA e (List.mem_append.mpr (Or.inr he)))
      · intro e he
        have he' : s.firstErr = some e := he
        show some e ∈ s.completions ++ [(DoRequest a lat).2]
        rw [List.mem_append]
        exact Or.inl (ihB e he')
      · intro hfe e he
        have hfe' : s.firstErr = none := hfe
        have he' : some e ∈ s.completions ++ [(DoRequest a lat).2] := he
        rw [List.mem_append] at he'
        show e ∈ (s.pendingLoad ++ ((DoRequest a lat).2).toList) ++ s.pendingStore
        simp only [List.mem_append]
        rcases he' with he' | he'
        · rcases List.mem_append.mp (ihC hfe' e he') with h | h
          · exact Or.inl (Or.inl h)
          · exact Or.inr h
        · simp only [List.mem_singleton] at he'
          refine Or.inl (Or.inr ?_)
          rw [← he']
          simp
    | errLoadNil l1 l2 e0 h1 h2 =>
      refine ⟨?_, ihB, ?_⟩
      · intro e he
        show some e ∈ s.completions
        apply ihA e
        rw [h1]
        have he' : e ∈ (l1 ++ l2) ++ (s.pendingStore ++ [e0]) := he
        simp only [List.mem_append, List.mem_cons, List.mem_singleton] at he' ⊢
        tauto
      · intro hfe e he
        have hfe' : s.firstErr = none := hfe
        have he' : some e ∈ s.completions := he
        have hm := ihC hfe' e he'
        rw [h1] at hm
        show e ∈ (l1 ++ l2) ++ (s.pendingStore ++ [e0])
        simp only [List.mem_append, List.mem_cons, List.mem_singleton] at hm ⊢
        tauto
    | errLoadSome l1 l2 e0 f h1 h2 =>
      refine ⟨?_, ihB, ?_⟩
      · intro e he
        show some e ∈ s.completions
        apply ihA e
        rw [h1]
        have he' : e ∈ (l1 ++ l2) ++ s.pendingStore := he
        simp only [List.mem_append, List.mem_cons] at he' ⊢
        tauto
      · intro hfe
        have hfe2 : s.firstErr = none := hfe
        rw [h2] at hfe2
        cases hfe2
    | errStore l1 l2 e0 h1 =>
      refine ⟨?_, ?_, ?_⟩
      · intro e he
        show some e ∈ s.completions
        apply ihA e
        rw [h1]
        have he' : e ∈ s.pendingLoad ++ (l1 ++ l2) := he
        simp only [List.mem_append, List.mem_cons] at he' ⊢
        tauto
      · intro e he
        have he' : (some e0 : Option Nat) = some e := he
        have he0 : e0 = e := by injection he'
        subst he0
        show some e0 ∈ s.completions
        apply ihA e0
        rw [h1]
        simp only [List.mem_append, List.mem_cons]
        tauto
      · intro hfe
        have hcontra : (some e0 : Option Nat) = none := hfe
        cases hcontra
    | release h1 =>
      exact ⟨ihA, ihB, ihC⟩

theorem pump_reach_quiescent {c : H2loadConf} (hcap : 0 < c.ConcurrentStreams)
    (k : Nat) (hk : (k : Int) ≤ c.Requests) :
    ∃ s, PumpReachable c s ∧ s.sent = (k : Int) ∧ s.inflight = 0 ∧ s.tokens = 0 ∧
      s.cancelled = false ∧ s.exited = false ∧ s.pendingLoad = [] ∧
      s.pendingStore = [] ∧ s.toRelease = 0 := by
  induction k with
  | zero =>
    exact ⟨PumpState.init, PumpReachable.init, by simp [PumpState.init], rfl, rfl,
      rfl, rfl, rfl, rfl, rfl⟩
  | succ k ih =>
    obtain ⟨s, hre, hsent, hinf, htok, hcanc, hex, hpl, hps, htr⟩ :=
      ih (by push_cast at hk ⊢; omega)
    by_cases hrps : 0 < c.Rps
    · have st1 : PumpStep c s { s with tokens := s.tokens + 1 } :=
        PumpStep.refill s hrps (by rw [htok]; exact_mod_cast hrps)
      have hre1 := PumpReachable.step hre st1
      have st2 := PumpStep.launch (c := c) { s with tokens := s.tokens + 1 }
        (by simpa using hex)
        (Or.inr (by show s.sent < c.Requests; rw [hsent]; push_cast at hk ⊢; omega))
        (Or.inr (by show 0 < s.tokens + 1; omega))
        (by show ((s.inflight : Nat) : Int) < c.ConcurrentStreams; rw [hinf]; simpa using hcap)
      have hre2 := PumpReachable.step hre1 st2
      have st3 := PumpStep.complete (c := c)
        { s with sent := s.sent + 1, inflight := s.inflight + 1,
                 tokens := if 0 < c.Rps then s.tokens + 1 - 1 else s.tokens + 1 }
        (Attempt.success 200) 0
        (by
          show s.pendingLoad.length + s.pendingStore.length + s.toRelease < s.inflight + 1
          rw [hpl, hps, htr]
          simp)
      have hre3 := PumpReachable.step hre2 st3
      have st4 := PumpStep.release (c := c)
        { s with sent := s.sent + 1, inflight := s.inflight + 1,
                 tokens := if 0 < c.Rps then s.tokens + 1 - 1 else s.tokens + 1,
                 outcomes := s.outcomes ++ [(DoRequest (Attempt.success 200) 0).1],
                 completions := s.completions ++ [(DoRequest (Attempt.success 200) 0).2],
                 pendingLoad := s.pendingLoad ++ ((DoRequest (Attempt.success 200) 0).2).toList,
                 toRelease := if (DoRequest (Attempt.success 200) 0).2 = none
                              then s.toRelease + 1 else s.toRelease }
        (by show 0 < s.toRelease + 1; omega)
      have hre4 := PumpReachable.step hre3 st4
      refine ⟨_, hre4, ?_, ?_, ?_, ?_, ?_, ?_, ?_, ?_⟩
      · show s.sent + 1 = ((k + 1 : Nat) : Int)
        rw [hsent]
        push_cast
        ring
      · show s.inflight + 1 - 1 = 0
        omega
      · show (if 0 < c.Rps then s.tokens + 1 - 1 else s.tokens + 1) = 0
        rw [if_pos hrps, htok]
      · exact hcanc
      · exact hex
      · show s.pendingLoad ++ [] = []
        rw [hpl]
        rfl
      · exact hps
      · show s.toRelease + 1 - 1 = 0
        omega
    · have st2 := PumpStep.launch (c := c) s
        hex
        (Or.inr (by rw [hsent]; push_cast at hk ⊢; omega))
        (Or.inl (by omega))
        (by rw [hinf]; simpa using hcap)
      have hre2 := PumpReachable.step hre st2
      have st3 := PumpStep.complete (c := c)
        { s with sent := s.sent + 1, inflight := s.inflight + 1,
                 tokens := if 0 < c.Rps then s.tokens - 1 else s.tokens }
        (Attempt.success 200) 0
        (by
          show s.pendingLoad.length + s.pendingStore.length + s.toRelease < s.inflight + 1
          rw [hpl, hps, htr]
          simp)
      have hre3 := PumpReachable.step hre2 st3
      have st4 := PumpStep.release (c := c)
        { s with sent := s.sent + 1, inflight := s.inflight + 1,
                 tokens := if 0 < c.Rps then s.tokens - 1 else s.tokens,
                 outcomes := s.outcomes ++ [(DoRequest (Attempt.success 200) 0).1],
                 completions := s.completions ++ [(DoRequest (Attempt.success 200) 0).2],
                 pendingLoad := s.pendingLoad ++ ((DoRequest (Attempt.success 200) 0).2).toList,
                 toRelease := if (DoRequest (Attempt.success 200) 0).2 = none
                              then s.toRelease + 1 else s.toRelease }
        (by show 0 < s.toRelease + 1; omega)
      have hre4 := PumpReachable.step hre3 st4
      refine ⟨_, hre4, ?_, ?_, ?_, ?_, ?_, ?_, ?_, ?_⟩
      · show s.sent + 1 = ((k + 1 : Nat) : Int)
        rw [hsent]
        push_cast
        ring
      · show s.inflight + 1 - 1 = 0
        omega
      · show (if 0 < c.Rps then s.tokens - 1 else s.tokens) = 0
        rw [if_neg hrps, htok]
      · exact hcanc
      · exact hex
      · show s.pendingLoad ++ [] = []
        rw [hpl]
        rfl
      · exact hps
      · show s.toRelease + 1 - 1 = 0
        omega

theorem pump_reach_exit {c : H2loadConf} (hcap : 0 < c.ConcurrentStreams)
    (hreq : 0 < c.Requests) :
    ∃ s, PumpReachable c s ∧ s.exited = true ∧ s.cancelled = false ∧
      s.sent = c.Requests := by
  obtain ⟨s, hre, hsent, hinf, htok, hcanc, hex, hpl, hps, htr⟩ :=
    pump_reach_quiescent hcap c.Requests.toNat (by omega)
  have hsent' : s.sent = c.Requests := by
    rw [hsent]
    omega
  have st := PumpStep.exitCeiling (c := c) s hex hreq (le_of_eq hsent'.symm)
  exact ⟨_, PumpReachable.step hre st, rfl, hcanc, hsent'⟩

theorem Validate_eq_none_iff (h : H2loadConf) :
    h.Validate = none ↔
      (h.URL ≠ "" ∧ 0 ≤ h.Requests ∧ 0 ≤ h.Rate ∧ 0 ≤ h.RatePeriod ∧ 0 ≤ h.Rps ∧
       0 ≤ h.ConcurrentStreams ∧ 0 ≤ h.Clients) := by
  unfold H2loadConf.Validate
  split_ifs <;> simp_all

theorem mergeStats_TotalRequests (acc s : RequestStats) :
    (mergeStats acc s).TotalRequests = acc.TotalRequests + s.TotalRequests := by
  simp only [mergeStats]
  split_ifs <;> rfl

theorem mergeStats_SuccessRequests (acc s : RequestStats) :
    (mergeStats acc s).SuccessRequests = acc.SuccessRequests + s.SuccessRequests := by
  simp only [mergeStats]
  split_ifs <;> rfl

theorem mergeStats_FailedRequests (acc s : RequestStats) :
    (mergeStats acc s).FailedRequests = acc.FailedRequests + s.FailedRequests := by
  simp only [mergeStats]
  split_ifs <;> rfl

theorem mergeStats_TotalLatency (acc s : RequestStats) :
    (mergeStats acc s).TotalLatency = acc.TotalLatency + s.TotalLatency := by
  simp only [mergeStats]
  split_ifs <;> rfl

theorem mergeStats_MinLatency (acc s : RequestStats) :
    (mergeStats acc s).MinLatency =
      if acc.MinLatency = 0 ∨ (0 < s.MinLatency ∧ s.MinLatency < acc.MinLatency) then
        s.MinLatency
      else acc.MinLatency := by
  simp only [mergeStats]
  split_ifs <;> rfl

theorem mergeStats_MaxLatency (acc s : RequestStats) :
    (mergeStats acc s).MaxLatency = max acc.MaxLatency s.MaxLatency := by
  simp only [mergeStats]
  split_ifs with h1 h2 h3 h4 h5 h6 <;>
    first
      | exact (max_eq_right (le_of_lt (by assumption))).symm
      | exact (max_eq_left (not_lt.mp (by assumption))).symm

theorem mergeStats_Duration (acc s : RequestStats) :
    (mergeStats acc s).Duration = max acc.Duration s.Duration := by
  simp only [mergeStats]
  split_ifs with h1 h2 h3 h4 h5 h6 <;>
    first
      | exact (max_eq_right (le_of_lt (by assumption))).symm
      | exact (max_eq_left (not_lt.mp (by assumption))).symm

theorem foldl_mergeStats_fields (l : List RequestStats) (acc : RequestStats) :
    l.foldl mergeStats acc =
      { TotalRequests := acc.TotalRequests + (l.map (fun s => s.TotalRequests)).sum,
        SuccessRequests := acc.SuccessRequests + (l.map (fun s => s.SuccessRequests)).sum,
        FailedRequests := acc.FailedRequests + (l.map (fun s => s.FailedRequests)).sum,
        MinLatency :=
          (l.map (fun s => s.MinLatency)).foldl
            (fun a x => if a = 0 ∨ (0 < x ∧ x < a) then x else a) acc.MinLatency,
        MaxLatency := (l.map (fun s => s.MaxLatency)).foldl max acc.MaxLatency,
        TotalLatency := acc.TotalLatency + (l.map (fun s => s.TotalLatency)).sum,
        Duration := (l.map (fun s => s.Duration)).foldl max acc.Duration } := by
  induction l generalizing acc with
  | nil => simp
  | cons s rest ih =>
    simp only [List.foldl_cons, List.map_cons, List.sum_cons, ih]
    rw [mergeStats_TotalRequests, mergeStats_SuccessRequests, mergeStats_FailedRequests,
        mergeStats_TotalLatency, mergeStats_MinLatency, mergeStats_MaxLatency,
        mergeStats_Duration]
    congr 1 <;> ring

theorem specMin_cons_zero (l : List Int) :
    specMinIgnoringZero (0 :: l) = specMinIgnoringZero l := by
  simp [specMinIgnoringZero]

theorem specMin_cons_ne_zero (a : Int) (ha : a ≠ 0) (l : List Int) :
    specMinIgnoringZero (a :: l) = (l.filter (fun x => x ≠ 0)).foldl min a := by
  simp [specMinIgnoringZero, List.filter_cons, ha]

theorem foldl_minMerge_eq_specMin (l : List Int) (hl : ∀ x ∈ l, 0 ≤ x) (acc : Int)
    (hacc : 0 ≤ acc) :
    l.foldl (fun a x => if a = 0 ∨ (0 < x ∧ x < a) then x else a) acc =
      specMinIgnoringZero (acc :: l) := by
  induction l generalizing acc with
  | nil =>
    by_cases h : acc = 0
    · simp [h, specMinIgnoringZero]
    · simp [specMin_cons_ne_zero acc h]
  | cons x xs ih =>
    have hx : 0 ≤ x := hl x (List.mem_cons_self x xs)
    have hxs : ∀ y ∈ xs, 0 ≤ y := fun y hy => hl y (List.mem_cons_of_mem x hy)
    simp only [List.foldl_cons]
    by_cases hacc0 : acc = 0
    · rw [if_pos (Or.inl hacc0), hacc0, specMin_cons_zero]
      exact ih hxs x hx
    · have haccpos : 0 < acc := lt_of_le_of_ne hacc (Ne.symm hacc0)
      by_cases hx0 : x = 0
      · rw [hx0]
        rw [if_neg (by push_neg; exact ⟨hacc0, fun h => absurd h (by omega)⟩)]
        rw [ih hxs acc hacc, specMin_cons_ne_zero acc hacc0,
            specMin_cons_ne_zero acc hacc0]
        simp [List.filter_cons]
      · have hxpos : 0 < x := lt_of_le_of_ne hx (Ne.symm hx0)
        have hstep :
            (if acc = 0 ∨ (0 < x ∧ x < acc) then x else acc) = min acc x := by
          split_ifs with h
          · rcases h with h | h
            · exact absurd h hacc0
            · omega
          · push_neg at h
            have := h.2 hxpos
            omega
        rw [hstep, ih hxs (min acc x) (le_min hacc hx),
            specMin_cons_ne_zero (min acc x) (lt_min haccpos hxpos).ne',
            specMin_cons_ne_zero acc hacc0]
        simp only [List.filter_cons, decide_eq_true_eq]
        rw [if_pos hx0, List.foldl_cons]

theorem statsCollectorStep_TotalRequests (st : RequestStats) (e : LogEntry) :
    (statsCollectorStep st e).TotalRequests = st.TotalRequests + 1 := by
  simp only [statsCollectorStep]
  split_ifs <;> rfl

theorem statsCollectorStep_SuccessRequests (st : RequestStats) (e : LogEntry) :
    (statsCollectorStep st e).SuccessRequests =
      if 200 ≤ e.Status ∧ e.Status < 400 then st.SuccessRequests + 1
      else st.SuccessRequests := by
  simp only [statsCollectorStep]
  split_ifs <;> rfl

theorem statsCollectorStep_FailedRequests (st : RequestStats) (e : LogEntry) :
    (statsCollectorStep st e).FailedRequests =
      if 200 ≤ e.Status ∧ e.Status < 400 then st.FailedRequests
      else st.FailedRequests + 1 := by
  simp only [statsCollectorStep]
  split_ifs <;> rfl

theorem statsCollectorStep_balance (st : RequestStats) (e : LogEntry)
    (h : st.SuccessRequests + st.FailedRequests = st.TotalRequests) :
    (statsCollectorStep st e).SuccessRequests + (statsCollectorStep st e).FailedRequests =
      (statsCollectorStep st e).TotalRequests := by
  rw [statsCollectorStep_TotalRequests, statsCollectorStep_SuccessRequests,
      statsCollectorStep_FailedRequests]
  split_ifs <;> omega

theorem foldl_statsCollectorStep_balance (entries : List LogEntry) (st : RequestStats)
    (h : st.SuccessRequests + st.FailedRequests = st.TotalRequests) :
    (entries.foldl statsCollectorStep st).SuccessRequests +
      (entries.foldl statsCollectorStep st).FailedRequests =
      (entries.foldl statsCollectorStep st).TotalRequests := by
  induction entries generalizing st with
  | nil => exact h
  | cons e rest ih =>
    exact ih _ (statsCollectorStep_balance st e h)

/-- A point in time as the formatters consume it: the wall-clock components
used by Go's layout `15:04:05.000000000` (hour, minute, second, sub-second
nanoseconds in the time's location) and the epoch view `UnixNano()`.  Both are
carried by a Go `time.Time`. -/
structure GoTime where
  hour : Nat
  minute : Nat
  second : Nat
  nanos : Nat
  unixNano : Int
  deriving DecidableEq, Repr

/-- The ASCII character for decimal digit `d`. -/
def digitChar (d : Nat) : Char := Char.ofNat (48 + d)

/-- The decimal digits of `n`, most significant first, as `fmt` renders a
nonnegative integer with the `%d` verb. -/
def natDigits (n : Nat) : List Char :=
  if _ : n < 10 then [digitChar n]
  else natDigits (n / 10) ++ [digitChar (n % 10)]
decreasing_by
  exact Nat.div_lt_self (by omega) (by omega)

/-- The decimal rendering of a nonnegative integer. -/
def goNatStr (n : Nat) : String := String.mk (natDigits n)

/-- The decimal rendering of an integer, as `fmt.Sprintf` with `%d` produces
it: a minus sign for negative values, then the digits. -/
def goItoa (i : Int) : String :=
  if i < 0 then "-" ++ goNatStr (-i).toNat else goNatStr i.toNat

/-- `n` rendered in decimal and left-padded with zeros to at least `width`
characters, as Go's zero-padded layout fields and `%0Nd` produce. -/
def padNat (width n : Nat) : String :=
  String.mk (List.replicate (width - (natDigits n).length) (digitChar 0)) ++ goNatStr n

/-- Round `n / k` to the nearest integer, ties to even (`k > 0`; `/` and `%`
here are Euclidean, which on the nonnegative operands used below coincides
with Go's behaviour).  This is the rounding `%.3f` applies at the third
decimal place. -/
def roundHalfEven (n k : Int) : Int :=
  let q := n / k
  let r := n % k
  if 2 * r < k then q
  else if k < 2 * r then q + 1
  else if q % 2 = 0 then q else q + 1

/-- The latency field of the structured formatter (h2client.go:395):
`fmt.Sprintf` of `float64(latency.Nanoseconds())/1000000` with `%.3f`, i.e.
the latency in milliseconds with exactly three decimal places.  The decimal
rounding is modelled as exact round-half-even of the nanosecond count to
microseconds; the binary `float64` division may differ from the exact
quotient by strictly less than one ulp, so the two agree except possibly on
exact half-microsecond ties, and the shape of the output (digits, one dot,
three decimal places) is identical. -/
def formatLatencyMs (latencyNs : Int) : String :=
  let micros := roundHalfEven latencyNs 1000
  if micros < 0 then
    "-" ++ goNatStr ((-micros).toNat / 1000) ++ "." ++ padNat 3 ((-micros).toNat % 1000)
  else
    goNatStr (micros.toNat / 1000) ++ "." ++ padNat 3 (micros.toNat % 1000)

/-- The timestamp field of the structured formatter: Go layout
`15:04:05.000000000` (h2client.go:393), i.e. zero-padded two-digit clock
fields and nine sub-second digits. -/
def formatClockStamp (t : GoTime) : String :=
  padNat 2 t.hour ++ ":" ++ padNat 2 t.minute ++ ":" ++ padNat 2 t.second ++
    "." ++ padNat 9 t.nanos

/-- Embeds `LogResultAsJSON` (h2client.go:391-402).  `json.Marshal` of the
`map[string]interface{}` emits the keys in sorted order
(`latency`, `status`, `timestamp`), renders the `int` status as a bare JSON
number and the two pre-formatted strings in quotes (none of their characters
need escaping), and cannot fail on this map, so the error branch returning
`""` is dead; the function appends a newline. -/
def LogResultAsJSON (start : GoTime) (status latency : Int) : String :=
  "\x7b\"latency\":\"" ++ formatLatencyMs latency ++ "ms\",\"status\":" ++
    goItoa status ++ ",\"timestamp\":\"" ++ formatClockStamp start ++ "\"\x7d\n"

/-- Embeds `LogResultAsText` (h2client.go:404-407): the epoch timestamp in
microseconds (`UnixNano()` divided by `time.Microsecond`, truncated), the
status and the latency in microseconds (`Duration.Microseconds()`, also
truncating division by 1000), space-separated with a trailing newline. -/
def LogResultAsText (start : GoTime) (status latency : Int) : String :=
  goItoa (Int.tdiv start.unixNano 1000) ++ " " ++ goItoa status ++ " " ++
    goItoa (Int.tdiv latency 1000) ++ "\n"

theorem digitChar_toNat (d : Nat) (hd : d < 10) : (digitChar d).toNat = 48 + d := by
  interval_cases d <;> decide

theorem natDigits_mem (n : Nat) :
    ∀ ch ∈ natDigits n, 48 ≤ ch.toNat ∧ ch.toNat ≤ 57 := by
  induction n using Nat.strong_induction_on with
  | _ n ih =>
    rw [natDigits]
    split_ifs with h
    · intro ch hch
      simp only [List.mem_singleton] at hch
      subst hch
      rw [digitChar_toNat n h]
      omega
    · intro ch hch
      rw [List.mem_append] at hch
      rcases hch with hch | hch
      · exact ih (n / 10) (Nat.div_lt_self (by omega) (by omega)) ch hch
      · simp only [List.mem_singleton] at hch
        subst hch
        rw [digitChar_toNat (n % 10) (Nat.mod_lt n (by omega))]
        omega

theorem natDigits_ne_nil (n : Nat) : natDigits n ≠ [] := by
  rw [natDigits]
  split_ifs <;> simp

theorem natDigits_length_le (k : Nat) (hk : 1 ≤ k) :
    ∀ n : Nat, n < 10 ^ k → (natDigits n).length ≤ k := by
  induction k with
  | zero => omega
  | succ k ih =>
    intro n hn
    rw [natDigits]
    split_ifs with h
    · simp
    · have hk1 : 1 ≤ k := by
        rcases Nat.eq_zero_or_pos k with hk0 | hk0
        · subst hk0
          simp at hn
          omega
        · exact hk0
      have hdiv : n / 10 < 10 ^ k := by
        rw [Nat.div_lt_iff_lt_mul (by norm_num)]
        calc n < 10 ^ (k + 1) := hn
        _ = 10 ^ k * 10 := by ring
      have := ih hk1 (n / 10) hdiv
      simp only [List.length_append, List.length_singleton]
      omega

theorem padNat_length (width n : Nat) (hw : 1 ≤ width) (hn : n < 10 ^ width) :
    (padNat width n).length = width := by
  have hle := natDigits_length_le width hw n hn
  have h1 : 1 ≤ (natDigits n).length := by
    have := natDigits_ne_nil n
    cases hd : natDigits n with
    | nil => exact absurd hd this
    | cons a l => simp
  simp only [padNat, goNatStr, String.length_append]
  show (String.mk (List.replicate (width - (natDigits n).length) (digitChar 0))).length +
    (String.mk (natDigits n)).length = width
  simp [String.length]
  omega

theorem count_nl_append (a b : String) :
    (a ++ b).data.count (Char.ofNat 10) =
      a.data.count (Char.ofNat 10) + b.data.count (Char.ofNat 10) := by
  rw [String.data_append, List.count_append]

theorem count_nl_of_digits (l : List Char)
    (h : ∀ ch ∈ l, 48 ≤ ch.toNat ∧ ch.toNat ≤ 57) :
    l.count (Char.ofNat 10) = 0 := by
  rw [List.count_eq_zero]
  intro hmem
  have := h _ hmem
  have h10 : (Char.ofNat 10).toNat = 10 := by decide
  omega

theorem goNatStr_count_nl (n : Nat) : (goNatStr n).data.count (Char.ofNat 10) = 0 :=
  count_nl_of_digits _ (natDigits_mem n)

theorem padNat_count_nl (w n : Nat) : (padNat w n).data.count (Char.ofNat 10) = 0 := by
  rw [padNat, count_nl_append, goNatStr_count_nl]
  have : (String.mk (List.replicate (w - (natDigits n).length) (digitChar 0))).data.count
      (Char.ofNat 10) = 0 := by
    apply count_nl_of_digits
    intro ch hch
    have := List.eq_of_mem_replicate hch
    subst this
    have : (digitChar 0).toNat = 48 := by decide
    omega
  omega

theorem goItoa_count_nl (i : Int) : (goItoa i).data.count (Char.ofNat 10) = 0 := by
  unfold goItoa
  split_ifs
  · rw [count_nl_append, goNatStr_count_nl]
    decide
  · exact goNatStr_count_nl _

theorem goItoa_mem (i : Int) :
    ∀ ch ∈ (goItoa i).data, (48 ≤ ch.toNat ∧ ch.toNat ≤ 57) ∨ ch = Char.ofNat 45 := by
  unfold goItoa
  split_ifs
  · intro ch hch
    rw [String.data_append] at hch
    rcases List.mem_append.mp hch with hch | hch
    · right
      have hminus : (("-" : String)).data = [Char.ofNat 45] := by decide
      rw [hminus, List.mem_singleton] at hch
      exact hch
    · exact Or.inl (natDigits_mem _ ch hch)
  · intro ch hch
    exact Or.inl (natDigits_mem _ ch hch)

theorem goItoa_ne_nil (i : Int) : (goItoa i).data ≠ [] := by
  unfold goItoa
  split_ifs
  · rw [String.data_append]
    have hminus : (("-" : String)).data = [Char.ofNat 45] := by decide
    rw [hminus]
    simp
  · exact natDigits_ne_nil _

theorem formatClockStamp_count_nl (t : GoTime) :
    (formatClockStamp t).data.count (Char.ofNat 10) = 0 := by
  unfold formatClockStamp
  rw [count_nl_append, count_nl_append, count_nl_append, count_nl_append,
      count_nl_append, count_nl_append]
  rw [padNat_count_nl, padNat_count_nl, padNat_count_nl, padNat_count_nl]
  decide

theorem roundHalfEven_nonneg (n k : Int) (hn : 0 ≤ n) (hk : 0 < k) :
    0 ≤ roundHalfEven n k := by
  simp only [roundHalfEven]
  have hq : 0 ≤ n / k := Int.ediv_nonneg hn (le_of_lt hk)
  split_ifs <;> omega

theorem formatLatencyMs_count_nl (l : Int) :
    (formatLatencyMs l).data.count (Char.ofNat 10) = 0 := by
  simp only [formatLatencyMs]
  split_ifs
  · rw [count_nl_append, count_nl_append, count_nl_append,
        goNatStr_count_nl, padNat_count_nl]
    decide
  · rw [count_nl_append, count_nl_append, goNatStr_count_nl, padNat_count_nl]
    decide

/-- A sample configuration used to instantiate the claim theorems at concrete
inputs: a nonempty URL and small nonnegative numeric fields. -/
def sampleConf : H2loadConf :=
  { Protocol := "h2", ServerAddress := "", Requests := 2, Rate := 0, RatePeriod := 0,
    Rps := 0, RpsMode := RpsMode.burst, ConcurrentStreams := 1, Clients := 1,
    URL := "http://localhost:8080" }

/-- The pool of the spec's aggregation example: three connections with
per-connection stats min = [5, 3, 8], max = [50, 40, 60],
totalLatency = [100, 90, 110], totalReq = [10, 9, 11] and
duration = [2s, 3s, 1s] (durations in nanoseconds). -/
def specExamplePool : H2loadClient :=
  { Clients :=
      [ { Conf := sampleConf, sentRequests := 10,
          stats := { TotalRequests := 10, SuccessRequests := 10, FailedRequests := 0,
                     MinLatency := 5, MaxLatency := 50, TotalLatency := 100,
                     Duration := 2000000000 } },
        { Conf := sampleConf, sentRequests := 9,
          stats := { TotalRequests := 9, SuccessRequests := 9, FailedRequests := 0,
                     MinLatency := 3, MaxLatency := 40, TotalLatency := 90,
                     Duration := 3000000000 } },
        { Conf := sampleConf, sentRequests := 11,
          stats := { TotalRequests := 11, SuccessRequests := 11, FailedRequests := 0,
                     MinLatency := 8, MaxLatency := 60, TotalLatency := 110,
                     Duration := 1000000000 } } ],
    ClientsConf := sampleConf }

theorem sum_counts_split (l : List RequestStats)
    (h : ∀ st ∈ l, st.SuccessRequests + st.FailedRequests = st.TotalRequests) :
    (l.map (fun s => s.SuccessRequests)).sum + (l.map (fun s => s.FailedRequests)).sum =
      (l.map (fun s => s.TotalRequests)).sum := by
  induction l with
  | nil => simp
  | cons s rest ih =>
    simp only [List.map_cons, List.sum_cons]
    have h1 := h s (List.mem_cons_self s rest)
    have h2 := ih fun st hst => h st (List.mem_cons_of_mem s hst)
    omega

/-- C1: for every connection and for the pool aggregate, after every
statistics update the counters satisfy
SuccessRequests + FailedRequests = TotalRequests, and an outcome is counted
successful exactly when its status lies in [200, 400) (so transport failures,
recorded with the sentinel status 0, count as failed). -/
theorem C1_success_plus_failed_eq_total :
    (∀ (st : RequestStats) (e : LogEntry),
      (statsCollectorStep st e).TotalRequests = st.TotalRequests + 1 ∧
      ((statsCollectorStep st e).SuccessRequests = st.SuccessRequests + 1 ↔
        (200 ≤ e.Status ∧ e.Status < 400)) ∧
      ((statsCollectorStep st e).FailedRequests = st.FailedRequests + 1 ↔
        ¬(200 ≤ e.Status ∧ e.Status < 400))) ∧
    (∀ entries : List LogEntry,
      (statsCollector entries).SuccessRequests + (statsCollector entries).FailedRequests =
        (statsCollector entries).TotalRequests) ∧
    (∀ h : H2loadClient,
      (∀ cl ∈ h.Clients,
        cl.stats.SuccessRequests + cl.stats.FailedRequests = cl.stats.TotalRequests) →
      h.GetTotalStats.SuccessRequests + h.GetTotalStats.FailedRequests =
        h.GetTotalStats.TotalRequests) := by
  refine ⟨?_, ?_, ?_⟩
  · intro st e
    refine ⟨statsCollectorStep_TotalRequests st e, ?_, ?_⟩
    · rw [statsCollectorStep_SuccessRequests]
      split_ifs with hc
      · simp [hc]
      · simpa using hc
    · rw [statsCollectorStep_FailedRequests]
      split_ifs with hc
      · simpa using hc
      · simp [hc]
  · intro entries
    exact foldl_statsCollectorStep_balance entries RequestStats.zero rfl
  · intro h hcl
    unfold H2loadClient.GetTotalStats
    rw [foldl_mergeStats_fields]
    simp only [List.map_map]
    have := sum_counts_split (h.Clients.map fun c => c.stats)
      (by
        intro st hst
        rw [List.mem_map] at hst
        obtain ⟨cl, hcl', rfl⟩ := hst
        exact hcl cl hcl')
    simp only [List.map_map] at this
    show 0 + _ + (0 + _) = 0 + _
    simp only [zero_add]
    exact this

theorem C1_witness :
    ((statsCollectorStep RequestStats.zero
        { Status := 200, Latency := 7, Timestamp := "" }).SuccessRequests =
      RequestStats.zero.SuccessRequests + 1) ∧
    specExamplePool.GetTotalStats.SuccessRequests +
        specExamplePool.GetTotalStats.FailedRequests =
      specExamplePool.GetTotalStats.TotalRequests :=
  ⟨((C1_success_plus_failed_eq_total.1 RequestStats.zero
      { Status := 200, Latency := 7, Timestamp := "" }).2.1).mpr (by decide),
   C1_success_plus_failed_eq_total.2.2 specExamplePool (by decide)⟩

/-- C2: `GetTotalStats` merges per-connection statistics by summing the three
counters and the latency sum, taking the minimum of the per-connection minimum
latencies ignoring zero, the maximum of the maximum latencies, and the longest
individual connection duration; on the spec's example (mins [5,3,8], maxes
[50,40,60], latency sums [100,90,110], totals [10,9,11], durations
[2s,3s,1s]) the merged result has minimum latency 3, maximum latency 60,
30 total requests and duration 3s. -/
theorem C2_total_stats_merge :
    (∀ h : H2loadClient,
      (∀ cl ∈ h.Clients, 0 ≤ cl.stats.MinLatency) →
      h.GetTotalStats =
        { TotalRequests := (h.Clients.map fun c => c.stats.TotalRequests).sum,
          SuccessRequests := (h.Clients.map fun c => c.stats.SuccessRequests).sum,
          FailedRequests := (h.Clients.map fun c => c.stats.FailedRequests).sum,
          MinLatency := specMinIgnoringZero (h.Clients.map fun c => c.stats.MinLatency),
          MaxLatency := (h.Clients.map fun c => c.stats.MaxLatency).foldl max 0,
          TotalLatency := (h.Clients.map fun c => c.stats.TotalLatency).sum,
          Duration := (h.Clients.map fun c => c.stats.Duration).foldl max 0 }) ∧
    (specExamplePool.GetTotalStats.MinLatency = 3 ∧
     specExamplePool.GetTotalStats.MaxLatency = 60 ∧
     specExamplePool.GetTotalStats.TotalRequests = 30 ∧
     specExamplePool.GetTotalStats.Duration = 3000000000) := by
  constructor
  · intro h hmin
    unfold H2loadClient.GetTotalStats
    rw [foldl_mergeStats_fields]
    simp only [RequestStats.zero, zero_add]
    have hminlist : ∀ x ∈ (h.Clients.map fun c => c.stats).map fun s => s.MinLatency,
        0 ≤ x := by
      intro x hx
      rw [List.map_map, List.mem_map] at hx
      obtain ⟨cl, hcl, rfl⟩ := hx
      exact hmin cl hcl
    rw [foldl_minMerge_eq_specMin _ hminlist 0 le_rfl, specMin_cons_zero]
    simp only [List.map_map]
    rfl
  · exact ⟨by decide, by decide, by decide, by decide⟩

theorem C2_witness :
    specExamplePool.GetTotalStats =
      { TotalRequests := (specExamplePool.Clients.map fun c => c.stats.TotalRequests).sum,
        SuccessRequests :=
          (specExamplePool.Clients.map fun c => c.stats.SuccessRequests).sum,
        FailedRequests := (specExamplePool.Clients.map fun c => c.stats.FailedRequests).sum,
        MinLatency :=
          specMinIgnoringZero (specExamplePool.Clients.map fun c => c.stats.MinLatency),
        MaxLatency := (specExamplePool.Clients.map fun c => c.stats.MaxLatency).foldl max 0,
        TotalLatency := (specExamplePool.Clients.map fun c => c.stats.TotalLatency).sum,
        Duration := (specExamplePool.Clients.map fun c => c.stats.Duration).foldl max 0 } :=
  C2_total_stats_merge.1 specExamplePool (by decide)

/-- C3 counterexample: the claim quantifies over every configuration with
`Requests > 0`, but with `ConcurrentStreams = 0` (which passes validation) the
non-blocking slot acquisition can never succeed, so the pump loop of such a
connection never terminates without cancellation: no reachable
cancellation-free state has exited the loop, even though `Requests = 1 > 0`. -/
theorem C3_counterexample :
    (∃ s, PumpReachable { sampleConf with Requests := 1, ConcurrentStreams := 0 } s ∧
      s.cancelled = false ∧ s.exited = true) = False := by
  apply eq_false
  rintro ⟨s, hre, hcanc, hex⟩
  have h := pump_zeroCap_invariant rfl (by decide) hre hcanc
  rw [hex] at h
  simp at h

/-- C3 (amended): for every configuration with `Requests > 0`,
`ConcurrentStreams > 0` and no cancellation, the sent-request counter never
exceeds the `Requests` ceiling, the pump loop exits exactly with the counter
at the ceiling (and such a terminating run exists), and a pool of connections
that all ran to completion has `GetSentRequests = Requests * N`. -/
theorem C3_requests_ceiling (c : H2loadConf) (hreq : 0 < c.Requests)
    (hcap : 0 < c.ConcurrentStreams) :
    (∀ s, PumpReachable c s → s.sent ≤ c.Requests) ∧
    (∀ s, PumpReachable c s → s.exited = true → s.cancelled = false →
      s.sent = c.Requests) ∧
    (∃ s, PumpReachable c s ∧ s.exited = true ∧ s.cancelled = false ∧
      s.sent = c.Requests) ∧
    (∀ pool : H2loadClient,
      (∀ cl ∈ pool.Clients, ∃ s, PumpReachable c s ∧ s.exited = true ∧
        s.cancelled = false ∧ cl.sentRequests = s.sent) →
      pool.GetSentRequests = c.Requests * pool.Clients.length) := by
  have hub : ∀ s, PumpReachable c s → s.sent ≤ c.Requests :=
    fun s h => (pump_invariant h).2.1 hreq
  have hexact : ∀ s, PumpReachable c s → s.exited = true → s.cancelled = false →
      s.sent = c.Requests := by
    intro s h hex hcanc
    have hlb := (pump_invariant h).2.2.2 hex hcanc hreq
    exact le_antisymm (hub s h) hlb
  refine ⟨hub, hexact, pump_reach_exit hcap hreq, ?_⟩
  intro pool hpool
  have hall : ∀ x ∈ pool.Clients.map (fun c => c.sentRequests), x = c.Requests := by
    intro x hx
    rw [List.mem_map] at hx
    obtain ⟨cl, hcl, rfl⟩ := hx
    obtain ⟨s, hre, hex, hcanc, hsent⟩ := hpool cl hcl
    rw [hsent]
    exact hexact s hre hex hcanc
  unfold H2loadClient.GetSentRequests
  rw [List.sum_eq_card_nsmul _ _ hall]
  simp [mul_comm]

theorem C3_witness :
    ∃ s, PumpReachable sampleConf s ∧ s.exited = true ∧ s.cancelled = false ∧
      s.sent = sampleConf.Requests :=
  (C3_requests_ceiling sampleConf (by decide) (by decide)).2.2.1

/-- C4: in every reachable state of one connection's pump, the number of
in-flight request tasks never exceeds the configured `ConcurrentStreams`
limit: a task is launched only after a slot of the fixed-capacity `streams`
channel is taken, and the slot is released only when the task completes. -/
theorem C4_concurrency_cap (c : H2loadConf) (hcap : 0 ≤ c.ConcurrentStreams) :
    ∀ s, PumpReachable c s → (s.inflight : Int) ≤ c.ConcurrentStreams :=
  fun _ h => (pump_invariant h).2.2.1 hcap

theorem C4_witness :
    ((PumpState.init.inflight : Int) ≤ sampleConf.ConcurrentStreams) :=
  C4_concurrency_cap sampleConf (by decide) PumpState.init PumpReachable.init

theorem NewH2loadClientChecked_none_eq (conf : H2loadConf) :
    NewH2loadClientChecked none conf =
      (match NewH2loadClient conf with
       | .ok pool => ConstructOutcome.ok pool
       | .error e => ConstructOutcome.validationError e) := by
  unfold NewH2loadClientChecked NewH2loadClient
  cases hval : conf.Validate with
  | some e => rfl
  | none =>
    simp only
    split_ifs with h
    · rw [h]
      rfl
    · rfl

/-- C5 counterexample: the URL ":" is non-empty and every numeric field of the
configuration is nonnegative, so validation passes, yet Go's `url.Parse(":")`
fails with `missing protocol scheme`; with `Clients = 1`, pool construction
panics inside the first `NewH2Client` (h2client.go:44) instead of yielding a
pool with one connection, contradicting the claim's "every configuration with
a non-empty URL and all numeric fields >= 0 yields a pool". -/
theorem C5_counterexample :
    ({ sampleConf with URL := ":" } : H2loadConf).Validate = none ∧
    NewH2loadClientChecked (some ("parse \":\": missing protocol scheme"))
        { sampleConf with URL := ":" } =
      ConstructOutcome.panicked
        ("invalid URL in conf: " ++ "parse \":\": missing protocol scheme") ∧
    ((∃ pool, NewH2loadClientChecked (some ("parse \":\": missing protocol scheme"))
        { sampleConf with URL := ":" } = ConstructOutcome.ok pool) = False) := by
  refine ⟨by decide, by decide, ?_⟩
  apply eq_false
  rintro ⟨pool, hp⟩
  have hpan : NewH2loadClientChecked (some ("parse \":\": missing protocol scheme"))
      { sampleConf with URL := ":" } =
      ConstructOutcome.panicked
        ("invalid URL in conf: " ++ "parse \":\": missing protocol scheme") := by
    decide
  rw [hpan] at hp
  cases hp

/-- C5 (amended): pool construction returns a validation error, and no
connection is attempted, exactly when the configuration has an empty URL or a
negative numeric field; every configuration with nonnegative numeric fields
and a non-empty URL that `urlpkg.Parse` accepts yields a pool with exactly
`Clients` fresh connections; and with a non-empty URL that `urlpkg.Parse`
rejects and at least one client, construction panics inside `NewH2Client`
instead of yielding a pool. -/
theorem C5_construction_validation (parseErr : Option String) (conf : H2loadConf) :
    ((∃ e, NewH2loadClientChecked parseErr conf = ConstructOutcome.validationError e) ↔
      (conf.URL = "" ∨ conf.Requests < 0 ∨ conf.Rate < 0 ∨ conf.RatePeriod < 0 ∨
       conf.Rps < 0 ∨ conf.ConcurrentStreams < 0 ∨ conf.Clients < 0)) ∧
    (conf.URL ≠ "" → 0 ≤ conf.Requests → 0 ≤ conf.Rate → 0 ≤ conf.RatePeriod →
      0 ≤ conf.Rps → 0 ≤ conf.ConcurrentStreams → 0 ≤ conf.Clients →
      parseErr = none →
      ∃ pool, NewH2loadClientChecked parseErr conf = ConstructOutcome.ok pool ∧
        (pool.Clients.length : Int) = conf.Clients ∧
        ∀ cl ∈ pool.Clients, cl = NewH2Client conf) ∧
    (conf.URL ≠ "" → 0 ≤ conf.Requests → 0 ≤ conf.Rate → 0 ≤ conf.RatePeriod →
      0 ≤ conf.Rps → 0 ≤ conf.ConcurrentStreams → 0 < conf.Clients →
      ∀ m, parseErr = some m →
        NewH2loadClientChecked parseErr conf =
          ConstructOutcome.panicked ("invalid URL in conf: " ++ m)) := by
  refine ⟨?_, ?_, ?_⟩
  · constructor
    · rintro ⟨e, he⟩
      by_contra hc
      push_neg at hc
      obtain ⟨h1, h2, h3, h4, h5, h6, h7⟩ := hc
      have hv : conf.Validate = none :=
        (Validate_eq_none_iff conf).mpr ⟨h1, by omega, by omega, by omega, by omega,
          by omega, by omega⟩
      unfold NewH2loadClientChecked at he
      rw [hv] at he
      cases hpe2 : parseErr with
      | some m =>
        rw [hpe2] at he
        simp only at he
        split_ifs at he
      | none =>
        rw [hpe2] at he
        simp only at he
        split_ifs at he
    · intro hbad
      have hv : conf.Validate ≠ none := by
        intro hv
        have := (Validate_eq_none_iff conf).mp hv
        rcases hbad with h | h | h | h | h | h | h <;> first
          | exact this.1 h
          | omega
      unfold NewH2loadClientChecked
      cases hval : conf.Validate with
      | none => exact absurd hval hv
      | some e => exact ⟨e, rfl⟩
  · intro h1 h2 h3 h4 h5 h6 h7 hpe
    subst hpe
    have hv : conf.Validate = none :=
      (Validate_eq_none_iff conf).mpr ⟨h1, h2, h3, h4, h5, h6, h7⟩
    unfold NewH2loadClientChecked
    rw [hv]
    simp only
    split_ifs with hz
    · refine ⟨_, rfl, ?_, ?_⟩
      · show ((List.length ([] : List H2Client) : Nat) : Int) = conf.Clients
        simp
        omega
      · intro cl hcl
        simp at hcl
    · refine ⟨_, rfl, ?_, ?_⟩
      · simp [Int.toNat_of_nonneg h7]
      · intro cl hcl
        exact List.eq_of_mem_replicate hcl
  · intro h1 h2 h3 h4 h5 h6 h7 m hpe
    subst hpe
    have hv : conf.Validate = none :=
      (Validate_eq_none_iff conf).mpr ⟨h1, h2, h3, h4, h5, h6, by omega⟩
    unfold NewH2loadClientChecked
    rw [hv]
    simp only
    rw [if_neg (by omega)]

theorem C5_witness :
    ∃ pool, NewH2loadClientChecked none sampleConf = ConstructOutcome.ok pool ∧
      (pool.Clients.length : Int) = sampleConf.Clients ∧
      ∀ cl ∈ pool.Clients, cl = NewH2Client sampleConf :=
  (C5_construction_validation none sampleConf).2.1 (by decide) (by decide) (by decide)
    (by decide) (by decide) (by decide) (by decide) rfl

/-- C6 counterexample: "first error wins" is not guaranteed by the code.  The
`firstErr.Load()` at h2client.go:346 and the `firstErr.Store(err)` at line 347
are two separate atomic operations with no mutual exclusion between them, so
two failed attempts can both read nil and the later store overwrites the
earlier error.  The trace below — two launches, two transport failures
completing in order 1 then 2, both goroutines loading nil before either
stores, goroutine 1 storing first, goroutine 2 overwriting, both slots
released, the loop exiting at the ceiling — reaches a drained,
cancellation-free final state whose returned error is the second error
observed, not the first. -/
theorem C6_counterexample :
    ∃ s, PumpReachable { sampleConf with ConcurrentStreams := 2 } s ∧
      s.completions = [some 1, some 2] ∧ s.pendingLoad = [] ∧ s.pendingStore = [] ∧
      s.inflight = 0 ∧ s.exited = true ∧ s.cancelled = false ∧
      pumpResult s = some 2 ∧ (s.completions.filterMap id).head? = some 1 ∧
      pumpResult s ≠ (s.completions.filterMap id).head? := by
  have h0 : PumpReachable { sampleConf with ConcurrentStreams := 2 } PumpState.init :=
    PumpReachable.init
  have h1 := PumpReachable.step h0
    (PumpStep.launch _ (by decide) (Or.inr (by decide)) (Or.inl (by decide)) (by decide))
  have h2 := PumpReachable.step h1
    (PumpStep.launch _ (by decide) (Or.inr (by decide)) (Or.inl (by decide)) (by decide))
  have h3 := PumpReachable.step h2
    (PumpStep.complete _ (Attempt.failure 1) 0 (by decide))
  have h4 := PumpReachable.step h3
    (PumpStep.complete _ (Attempt.failure 2) 0 (by decide))
  have h5 := PumpReachable.step h4
    (PumpStep.errLoadNil _ [] [2] 1 (by decide) (by decide))
  have h6 := PumpReachable.step h5
    (PumpStep.errLoadNil _ [] [] 2 (by decide) (by decide))
  have h7 := PumpReachable.step h6
    (PumpStep.errStore _ [] [2] 1 (by decide))
  have h8 := PumpReachable.step h7
    (PumpStep.errStore _ [] [] 2 (by decide))
  have h9 := PumpReachable.step h8
    (PumpStep.release _ (by decide))
  have h10 := PumpReachable.step h9
    (PumpStep.release _ (by decide))
  have h11 := PumpReachable.step h10
    (PumpStep.exitCeiling _ (by decide) (by decide) (by decide))
  exact ⟨_, h11, by decide, by decide, by decide, by decide, by decide, by decide,
    by decide, by decide, by decide⟩

/-- C6 (amended): a transport failure is recorded as a failed outcome with the
sentinel status 0 and does not stop the pump (completing an attempt, failed or
not, leaves the loop state untouched), and once every failure's load/store
handling has run, `DoRequestsFactory` returns nil if and only if no attempt
failed, and otherwise returns one of the errors observed across the failed
attempts — not necessarily the first, since the racy `firstErr.Load() == nil`
check followed by `firstErr.Store(err)` lets a later failure overwrite an
earlier one when the check-and-store pairs interleave. -/
theorem C6_error_reporting :
    (∀ (e : Nat) (lat : Int) (st : RequestStats),
      (DoRequest (Attempt.failure e) lat).1.Status = 0 ∧
      (DoRequest (Attempt.failure e) lat).2 = some e ∧
      (statsCollectorStep st (DoRequest (Attempt.failure e) lat).1).FailedRequests =
        st.FailedRequests + 1 ∧
      (statsCollectorStep st (DoRequest (Attempt.failure e) lat).1).SuccessRequests =
        st.SuccessRequests) ∧
    (∀ (c : H2loadConf) (s : PumpState) (a : Attempt) (lat : Int),
      s.pendingLoad.length + s.pendingStore.length + s.toRelease < s.inflight →
      ∃ s', PumpStep c s s' ∧ s'.exited = s.exited ∧ s'.cancelled = s.cancelled ∧
        s'.sent = s.sent ∧ s'.inflight = s.inflight ∧
        s'.completions = s.completions ++ [(DoRequest a lat).2]) ∧
    (∀ (c : H2loadConf) (s : PumpState), PumpReachable c s →
      s.pendingLoad = [] → s.pendingStore = [] →
      ((pumpResult s = none ↔ ∀ o ∈ s.completions, o = none) ∧
       (∀ e, pumpResult s = some e → some e ∈ s.completions))) := by
  refine ⟨?_, ?_, ?_⟩
  · intro e lat st
    refine ⟨rfl, rfl, ?_, ?_⟩
    · rw [statsCollectorStep_FailedRequests]
      rw [if_neg (by simp [DoRequest])]
    · rw [statsCollectorStep_SuccessRequests]
      rw [if_neg (by simp [DoRequest])]
  · intro c s a lat hrun
    exact ⟨_, PumpStep.complete s a lat hrun, rfl, rfl, rfl, rfl, rfl⟩
  · intro c s hre hpl hps
    obtain ⟨hA, hB, hC⟩ := pump_err_invariant hre
    constructor
    · constructor
      · intro hfe o ho
        cases o with
        | none => rfl
        | some e =>
          have hm := hC hfe e ho
          rw [hpl, hps] at hm
          simp at hm
      · intro hall
        cases hfe : s.firstErr with
        | none => exact hfe
        | some e =>
          have := hall (some e) (hB e hfe)
          cases this
    · intro e he
      exact hB e he

theorem C6_witness :
    (DoRequest (Attempt.failure 7) 5).1.Status = 0 ∧
    (pumpResult PumpState.init = none ↔ ∀ o ∈ PumpState.init.completions, o = none) :=
  ⟨(C6_error_reporting.1 7 5 RequestStats.zero).1,
   (C6_error_reporting.2.2 sampleConf PumpState.init PumpReachable.init rfl rfl).1⟩

/-- C7 (code bug): the even-mode refill goroutine does not stop refilling
immediately on cancellation, and can fail to terminate.  First conjunct: from
a state where the context is already cancelled and the reservoir has room, a
tick may still deliver a token (Go's `select` chooses uniformly among the
ready `<-ctx.Done()` and `rpsTokens <- struct{}{}` cases).  Second conjunct:
once the pump has returned and its deferred `Stop()` has stopped the ticker, a
refill goroutine still waiting in `for range evenTicker.C` can never reach its
`return`: no sequence of steps from such a state ends with `returned = true`,
so the task outlives the owning connection's run. -/
theorem C7_refill_after_cancel_and_leak :
    RefillStep 1 { tokens := 0, cancelled := true, tickerStopped := false, returned := false }
      { tokens := 1, cancelled := true, tickerStopped := false, returned := false } ∧
    ((∃ s', Relation.ReflTransGen (RefillStep 1)
        { tokens := 0, cancelled := true, tickerStopped := true, returned := false } s' ∧
        s'.returned = true) = False) := by
  constructor
  · exact RefillStep.tickSend _ rfl rfl (by decide)
  · apply eq_false
    rintro ⟨s', hsteps, hret⟩
    have key : ∀ t t' : RefillState, Relation.ReflTransGen (RefillStep 1) t t' →
        t.tickerStopped = true → t.returned = false →
        t'.tickerStopped = true ∧ t'.returned = false := by
      intro t t' h
      induction h with
      | refl => exact fun a b => ⟨a, b⟩
      | tail hsteps hstep ih =>
        intro ha hb
        obtain ⟨h1, h2⟩ := ih ha hb
        cases hstep with
        | cancel h3 => exact ⟨h1, h2⟩
        | stopTicker h3 => exact ⟨rfl, h2⟩
        | consume h3 => exact ⟨h1, h2⟩
        | tickSend h3 h4 h5 =>
          rw [h1] at h4
          exact Bool.noConfusion h4
        | tickReturn h3 h4 h5 =>
          rw [h1] at h4
          exact Bool.noConfusion h4
        | tickFull h3 h4 h5 h6 =>
          rw [h1] at h4
          exact Bool.noConfusion h4
    have hfin := key _ _ hsteps rfl rfl
    rw [hfin.2] at hret
    exact Bool.noConfusion hret

/-- C8: the compact formatter emits exactly three whitespace-separated integer
tokens per line (the microsecond epoch timestamp, the status code, the latency
in microseconds) followed by one newline, and the structured formatter emits
one JSON object per line with the keys `latency` (milliseconds with exactly
three decimal places, suffixed `ms`), `status` (a bare integer) and
`timestamp` (zero-padded clock time with nine sub-second digits). -/
theorem C8_formatter_shapes (t : GoTime) (status latencyNs : Int)
    (hlat : 0 ≤ latencyNs) (hh : t.hour < 100) (hm : t.minute < 100)
    (hs : t.second < 100) (hn : t.nanos < 1000000000) :
    (LogResultAsText t status latencyNs =
        goItoa (Int.tdiv t.unixNano 1000) ++ " " ++ goItoa status ++ " " ++
          goItoa (Int.tdiv latencyNs 1000) ++ "\n" ∧
      (LogResultAsText t status latencyNs).data.count (Char.ofNat 10) = 1 ∧
      (∀ i : Int, (goItoa i).data ≠ [] ∧
        ∀ ch ∈ (goItoa i).data, (48 ≤ ch.toNat ∧ ch.toNat ≤ 57) ∨ ch = Char.ofNat 45)) ∧
    (∃ msWhole msFrac : Nat,
      msFrac < 1000 ∧
      ((msWhole : Int) * 1000 + (msFrac : Int)) = roundHalfEven latencyNs 1000 ∧
      LogResultAsJSON t status latencyNs =
        "\x7b\"latency\":\"" ++ goNatStr msWhole ++ "." ++ padNat 3 msFrac ++
          "ms\",\"status\":" ++ goItoa status ++ ",\"timestamp\":\"" ++
          padNat 2 t.hour ++ ":" ++ padNat 2 t.minute ++ ":" ++ padNat 2 t.second ++
          "." ++ padNat 9 t.nanos ++ "\"\x7d\n" ∧
      (padNat 3 msFrac).length = 3 ∧ (padNat 9 t.nanos).length = 9 ∧
      (padNat 2 t.hour).length = 2 ∧ (padNat 2 t.minute).length = 2 ∧
      (padNat 2 t.second).length = 2 ∧
      (LogResultAsJSON t status latencyNs).data.count (Char.ofNat 10) = 1) := by
  have hnn : 0 ≤ roundHalfEven latencyNs 1000 :=
    roundHalfEven_nonneg latencyNs 1000 hlat (by norm_num)
  constructor
  · refine ⟨rfl, ?_, ?_⟩
    · unfold LogResultAsText
      simp only [count_nl_append, goItoa_count_nl]
      decide
    · exact fun i => ⟨goItoa_ne_nil i, goItoa_mem i⟩
  · refine ⟨(roundHalfEven latencyNs 1000).toNat / 1000,
            (roundHalfEven latencyNs 1000).toNat % 1000, ?_, ?_, ?_, ?_, ?_, ?_, ?_, ?_, ?_⟩
    · exact Nat.mod_lt _ (by norm_num)
    · have harith : (roundHalfEven latencyNs 1000).toNat / 1000 * 1000 +
          (roundHalfEven latencyNs 1000).toNat % 1000 =
          (roundHalfEven latencyNs 1000).toNat := by omega
      calc ((((roundHalfEven latencyNs 1000).toNat / 1000 : Nat) : Int) * 1000 +
              (((roundHalfEven latencyNs 1000).toNat % 1000 : Nat) : Int))
          = (((roundHalfEven latencyNs 1000).toNat / 1000 * 1000 +
              (roundHalfEven latencyNs 1000).toNat % 1000 : Nat) : Int) := by push_cast; ring
        _ = (((roundHalfEven latencyNs 1000).toNat : Nat) : Int) := by rw [harith]
        _ = roundHalfEven latencyNs 1000 := Int.toNat_of_nonneg hnn
    · unfold LogResultAsJSON formatClockStamp
      simp only [formatLatencyMs]
      rw [if_neg (not_lt.mpr hnn)]
      simp only [String.append_assoc]
    · exact padNat_length 3 _ (by norm_num) (Nat.mod_lt _ (by norm_num))
    · exact padNat_length 9 _ (by norm_num) (by norm_num at hn ⊢; omega)
    · exact padNat_length 2 _ (by norm_num) (by norm_num at hh ⊢; omega)
    · exact padNat_length 2 _ (by norm_num) (by norm_num at hm ⊢; omega)
    · exact padNat_length 2 _ (by norm_num) (by norm_num at hs ⊢; omega)
    · unfold LogResultAsJSON formatClockStamp
      simp only [formatLatencyMs]
      rw [if_neg (not_lt.mpr hnn)]
      simp only [count_nl_append, goItoa_count_nl, goNatStr_count_nl, padNat_count_nl]
      decide

theorem C8_witness :
    (LogResultAsText (GoTime.mk 12 34 56 123456789 1700000000123456789)
        200 1234567).data.count (Char.ofNat 10) = 1 :=
  (C8_formatter_shapes (GoTime.mk 12 34 56 123456789 1700000000123456789) 200 1234567
      (by decide) (by decide) (by decide) (by decide) (by decide)).1.2.1

/-- C9: a configuration with `Clients = 0` passes validation and yields a pool
with zero connections, and `GetAvgClientStats` on such a pool divides its
totals by the client count zero with no guard: in Go the `int64` division for
the averaged latency total panics with a divide-by-zero runtime error (and the
float divisions feeding the averaged request counters produce values whose
integer conversion is not defined), so no defined averaged statistics are
produced. -/
theorem C9_avg_divide_by_zero (conf : H2loadConf) (h1 : conf.URL ≠ "")
    (h2 : 0 ≤ conf.Requests) (h3 : 0 ≤ conf.Rate) (h4 : 0 ≤ conf.RatePeriod)
    (h5 : 0 ≤ conf.Rps) (h6 : 0 ≤ conf.ConcurrentStreams) (h7 : conf.Clients = 0) :
    conf.Validate = none ∧
    ∃ pool, NewH2loadClient conf = .ok pool ∧ pool.Clients = [] ∧
      pool.GetAvgClientStats = .error ("runtime error: integer divide by zero") := by
  have hv : conf.Validate = none :=
    (Validate_eq_none_iff conf).mpr ⟨h1, h2, h3, h4, h5, h6, by omega⟩
  refine ⟨hv, ?_⟩
  unfold NewH2loadClient
  rw [hv]
  have hnil : List.replicate conf.Clients.toNat (NewH2Client conf) = [] := by
    rw [h7]
    rfl
  refine ⟨_, rfl, hnil, ?_⟩
  simp [H2loadClient.GetAvgClientStats, hnil]

theorem C9_witness :
    ∃ pool, NewH2loadClient { sampleConf with Clients := 0 } = .ok pool ∧
      pool.Clients = [] ∧
      pool.GetAvgClientStats = .error ("runtime error: integer divide by zero") :=
  (C9_avg_divide_by_zero { sampleConf with Clients := 0 } (by decide) (by decide)
    (by decide) (by decide) (by decide) (by decide) rfl).2

/-- C10: a configuration with `ConcurrentStreams = 0` passes validation, but
the pump's slot channel then has zero capacity and (having no receivers) the
non-blocking send can never succeed, so with `Requests > 0` and no
cancellation every reachable pump state still has a zero sent-request counter,
no request dispatched, and the loop not exited — the pump never terminates. -/
theorem C10_zero_streams_stall :
    (∀ conf : H2loadConf, conf.URL ≠ "" → 0 ≤ conf.Requests → 0 ≤ conf.Rate →
      0 ≤ conf.RatePeriod → 0 ≤ conf.Rps → conf.ConcurrentStreams = 0 →
      0 ≤ conf.Clients → conf.Validate = none) ∧
    (∀ (conf : H2loadConf) (s : PumpState), conf.ConcurrentStreams = 0 →
      0 < conf.Requests → PumpReachable conf s → s.cancelled = false →
      s.sent = 0 ∧ s.inflight = 0 ∧ s.exited = false) := by
  constructor
  · intro conf h1 h2 h3 h4 h5 h6 h7
    exact (Validate_eq_none_iff conf).mpr ⟨h1, h2, h3, h4, h5, by omega, h7⟩
  · intro conf s hcap hreq hre hcanc
    obtain ⟨ha, hb, hc, _, _, _⟩ := pump_zeroCap_invariant hcap hreq hre hcanc
    exact ⟨ha, hb, hc⟩

theorem C10_witness :
    ({ sampleConf with ConcurrentStreams := 0, Requests := 1 } : H2loadConf).Validate =
        none ∧
      (PumpState.init.sent = 0 ∧ PumpState.init.inflight = 0 ∧
        PumpState.init.exited = false) :=
  ⟨C10_zero_streams_stall.1 _ (by decide) (by decide) (by decide) (by decide) (by decide)
      rfl (by decide),
    C10_zero_streams_stall.2 { sampleConf with ConcurrentStreams := 0, Requests := 1 }
      PumpState.init rfl (by decide) PumpReachable.init rfl⟩
